import Mathlib

/-!
# Verification of the CXO connection engine (SkycoinProject/cxo)

Shallow embedding of the parts of the repository that the checked claims
are about:

* the framed-message codec of `src/node/gnet/conn.go` (`Conn.writeMsg` and
  the frame-decoding part of the `Conn.read` loop),
* the redial backoff update and the dials-limit counter of `Conn.dial`,
* the fault triggers `Conn.triggerDialingRead` / `Conn.triggerDialingWrite`,
* `Conn.Close` / `Conn.closeConnection` (the close state machine),
* `OnDialFilter` of the `node` package,
* `encodeUint32` / `decodeUint32` / `versionBytes` of the `cxds` package.

Byte strings are modelled as `List Nat` (each element a byte value),
Go `time.Duration` as `Nat` (nanoseconds), Go machine integers as
`Nat`/`Int` with explicit `% 2 ^ 32` where the code performs a `uint32`
conversion.
-/

namespace Cxo

/-! ## Framed codec (src/node/gnet/conn.go)

`binary.LittleEndian.PutUint32` / `binary.LittleEndian.Uint32` on 4-byte
buffers. -/

/-- The four bytes `binary.LittleEndian.PutUint32` stores for `n % 2 ^ 32`. -/
def putUint32LE (n : Nat) : List Nat :=
  [n % 256, n / 256 % 256, n / 65536 % 256, n / 16777216 % 256]

/-- `binary.LittleEndian.Uint32` over the first four bytes of a buffer.
The read loop only applies this after reading exactly 4 bytes, so the
shorter cases are unreachable there. -/
def getUint32LE : List Nat → Nat
  | b0 :: b1 :: b2 :: b3 :: _ => b0 + 256 * b1 + 65536 * b2 + 16777216 * b3
  | _ => 0

/-- The Go conversion `l = int(ln)` of a `uint32` to the host `int`:
on a 64-bit host it zero-extends, on a 32-bit host it reinterprets the
value as a signed 32-bit integer (negative for `ln ≥ 2 ^ 31`). -/
def intOfUint32 (hostBits : Nat) (n : Nat) : Int :=
  if hostBits = 32 ∧ 2 ^ 31 ≤ n then (n : Int) - 2 ^ 32 else (n : Int)

/-- Result of `Conn.writeMsg`: the returned `(terminate, err)` pair of the
Go function together with the sequence of `Write` calls it issued on the
underlying writer. -/
structure WriteMsgResult where
  terminate : Bool
  errored : Bool
  writes : List (List Nat)
  deriving DecidableEq

/-- `Conn.writeMsg` (conn.go lines 522-564).  `maxMessageSize` is
`c.p.conf.MaxMessageSize` (validated non-negative), `isClosed` the result
of `c.isClosed()`, and `headWriteOk`/`bodyWriteOk` tell whether the two
`w.Write` calls succeed (they are I/O on the underlying stream, external
to the function). -/
def writeMsg (maxMessageSize : Nat) (isClosed : Bool)
    (headWriteOk bodyWriteOk : Bool) (body : List Nat) : WriteMsgResult :=
  if 0 < maxMessageSize ∧ maxMessageSize < body.length then
    ⟨true, false, []⟩
  else
    let head := putUint32LE (body.length % 2 ^ 32)
    if headWriteOk = false then
      ⟨isClosed, true, [head]⟩
    else if bodyWriteOk = false then
      ⟨isClosed, true, [head, body]⟩
    else
      ⟨false, false, [head, body]⟩

/-- Result of one frame-decoding step of the `Conn.read` loop:
`fault` is a short read (`io.ReadFull` fails: the loop triggers redialing
for outgoing connections), `fatalNegative` and `fatalOversize` are the two
`return` paths that terminate the harness, `msg body rest` is a decoded
payload together with the unconsumed remainder of the stream. -/
inductive ReadResult
  | fault
  | fatalNegative
  | fatalOversize
  | msg (body rest : List Nat)
  deriving DecidableEq

/-- One iteration of the frame-decoding part of `Conn.read`
(conn.go lines 472-516) on the byte stream `s`: read exactly 4 head
bytes, parse the little-endian length, widen to the host `int`
(`hostBits` is the host integer width), check sign and maximum size,
then read exactly that many body bytes. -/
def readMsg (maxMessageSize hostBits : Nat) (s : List Nat) : ReadResult :=
  if s.length < 4 then ReadResult.fault
  else
    let head := s.take 4
    let rest := s.drop 4
    let ln := getUint32LE head
    let l := intOfUint32 hostBits ln
    if l < 0 then ReadResult.fatalNegative
    else if 0 < maxMessageSize ∧ (maxMessageSize : Int) < l then
      ReadResult.fatalOversize
    else if rest.length < l.toNat then ReadResult.fault
    else ReadResult.msg (rest.take l.toNat) (rest.drop l.toNat)

/-! ## Redial backoff (Conn.dial, conn.go lines 398-425) -/

/-- 100 milliseconds in nanoseconds (`100 * time.Millisecond`). -/
def hundredMs : Nat := 100000000

/-- The backoff update performed by `Conn.dial` when `c.dialing()` fails
(conn.go lines 401-410): `tm` is the current backoff and `maxRedial` is
`c.p.conf.MaxRedialTimeout`, both in nanoseconds. -/
def updateBackoff (maxRedial tm : Nat) : Nat :=
  if maxRedial > tm then
    let t := if tm = 0 then hundredMs else tm * 2
    if t > maxRedial then maxRedial else t
  else tm

/-! ## Dials-limit counter (Conn.dial, conn.go lines 352-439)

The `diallm` counter lives for the whole life of the dial goroutine: it is
initialised once from `Config.DialsLimit` (`0` is replaced by `-1`), and
each iteration of the inner `DialLoop` first returns (closing the
connection) if the counter is `0` and otherwise decrements it and performs
one dial attempt. -/

/-- Initialisation of the counter: `if diallm == 0 { diallm-- }`. -/
def dialInit (diallm : Int) : Int :=
  if diallm = 0 then diallm - 1 else diallm

/-- One iteration of the inner dial loop, as far as the counter is
concerned: `none` means the iteration hit `diallm == 0` and closed the
connection instead of dialing; `some c` means a dial attempt was
performed and the counter is now `c`. -/
def dialIter (c : Int) : Option Int :=
  if c = 0 then none else some (c - 1)

/-- Counter value after `k` iterations of the inner dial loop starting
from configured limit `diallm`; `none` once an iteration has closed the
connection.  `counterAfter diallm k ≠ none` says that the loop performed
at least `k` dial attempts. -/
def counterAfter (diallm : Int) : Nat → Option Int
  | 0 => some (dialInit diallm)
  | k + 1 => (counterAfter diallm k).bind dialIter

/-! ## Fault triggers (conn.go lines 225-282)

`Conn.triggerDialingRead` and `Conn.triggerDialingWrite` are modelled as
the sequence of externally visible actions they perform.  The two
`select` statements introduce scheduler nondeterminism, captured by the
parameters `otherSignaled` (whether the non-blocking first `select` finds
the other loop's one-shot ready) and `choice` (which arm of the blocking
second `select` fires). -/

/-- Externally visible actions of a fault trigger. -/
inductive FaultAction
  | closeStream
  | closeConn
  | recvWrited
  | recvReadd
  | sendReadd
  | sendWrited
  | triggerDial
  | observeClosed
  deriving DecidableEq

/-- The arm of the blocking `select` that fires when the fault trigger
has to coordinate with the other loop. -/
inductive RecoverChoice
  | sendOwn
  | recvOther
  | closedFires
  deriving DecidableEq

/-- `Conn.triggerDialingRead` (conn.go lines 225-255): close the faulty
stream; if the connection is incoming, close the `Conn` and return;
otherwise coordinate a redial with the write loop via the `writed` and
`readd` one-shots. -/
def triggerDialingRead (incoming otherSignaled : Bool)
    (choice : RecoverChoice) : List FaultAction :=
  if incoming then [FaultAction.closeStream, FaultAction.closeConn]
  else if otherSignaled then [FaultAction.closeStream, FaultAction.recvWrited]
  else
    match choice with
    | RecoverChoice.sendOwn =>
        [FaultAction.closeStream, FaultAction.sendReadd, FaultAction.triggerDial]
    | RecoverChoice.recvOther =>
        [FaultAction.closeStream, FaultAction.recvWrited]
    | RecoverChoice.closedFires =>
        [FaultAction.closeStream, FaultAction.observeClosed]

/-- `Conn.triggerDialingWrite` (conn.go lines 258-282): symmetric to
`triggerDialingRead` with the `readd` and `writed` one-shots swapped. -/
def triggerDialingWrite (incoming otherSignaled : Bool)
    (choice : RecoverChoice) : List FaultAction :=
  if incoming then [FaultAction.closeStream, FaultAction.closeConn]
  else if otherSignaled then [FaultAction.closeStream, FaultAction.recvReadd]
  else
    match choice with
    | RecoverChoice.sendOwn =>
        [FaultAction.closeStream, FaultAction.sendWrited, FaultAction.triggerDial]
    | RecoverChoice.recvOther =>
        [FaultAction.closeStream, FaultAction.recvReadd]
    | RecoverChoice.closedFires =>
        [FaultAction.closeStream, FaultAction.observeClosed]

/-- Whether a fault action operates on one of the redial channels
(`dialtr`, `readd`, `writed`). -/
def touchesRedialChannel : FaultAction → Bool
  | FaultAction.recvWrited => true
  | FaultAction.recvReadd => true
  | FaultAction.sendReadd => true
  | FaultAction.sendWrited => true
  | FaultAction.triggerDial => true
  | _ => false

/-! ## Connection state and Close (conn.go lines 16-24, 187-197, 753-766) -/

/-- `ConnState` of gnet: `ConnStateConnected` is the zero value. -/
inductive ConnState
  | connected
  | dialing
  | closed
  deriving DecidableEq

/-- The fields of a `Conn` that `Close`/`closeConnection` read or write:
`state` and `hasConn` (whether `c.conn != nil`) are guarded by `cmx`;
`closedCh` is whether the `closed` channel has been closed; `inPool` is
whether the address is present in the pool registry; `closeOnce` is
whether `closeo.Do` has already run its body. -/
structure ConnM where
  state : ConnState
  hasConn : Bool
  closedCh : Bool
  inPool : Bool
  closeOnce : Bool
  deriving DecidableEq

/-- Observable actions of `Conn.Close`. -/
inductive CloseAction
  | closeClosedChannel
  | closeStream
  | deleteFromPool
  | onCloseCallback
  deriving DecidableEq

/-- `Conn.closeConnection` (conn.go lines 187-197): close the underlying
`net.Conn` and set the state to `ConnStateClosed` — but only when
`c.conn != nil`. -/
def closeConnection (c : ConnM) : ConnM × List CloseAction :=
  if c.hasConn then
    ({ c with state := ConnState.closed }, [CloseAction.closeStream])
  else (c, [])

/-- `Conn.Close` (conn.go lines 753-766): under `closeo.Do`, close the
`closed` channel, run `closeConnection`, remove the address from the pool
registry and invoke the `OnCloseConnection` callback when configured
(`hasCallback`). -/
def ConnM.Close (hasCallback : Bool) (c : ConnM) : ConnM × List CloseAction :=
  if c.closeOnce then (c, [])
  else
    let c1 := { c with closeOnce := true, closedCh := true }
    let r2 := closeConnection c1
    let c3 := { r2.1 with inPool := false }
    (c3, CloseAction.closeClosedChannel ::
      (r2.2 ++ CloseAction.deleteFromPool ::
        (if hasCallback then [CloseAction.onCloseCallback] else [])))

/-- `n` successive calls of `Conn.Close` on the same connection,
returning the final connection state and the concatenation of the
observable actions of all calls. -/
def closeN (hasCallback : Bool) (c : ConnM) : Nat → ConnM × List CloseAction
  | 0 => (c, [])
  | n + 1 =>
    ((closeN hasCallback (ConnM.Close hasCallback c).1 n).1,
      (ConnM.Close hasCallback c).2 ++ (closeN hasCallback (ConnM.Close hasCallback c).1 n).2)

/-- An outgoing `Conn` as `createConnection` plus the initial
`triggerDialing(nil)` leave it, before any dial attempt has succeeded:
state `ConnStateDialing`, no underlying `net.Conn`, registered in the
pool, not yet closed. -/
def dialingNoStreamConn : ConnM :=
  ⟨ConnState.dialing, false, false, true, false⟩

/-! ## OnDialFilter (node package, src/unnamed/part_001 lines 324-345) -/

/-- What `OnDialFilter` inspects about an inner error of a
`*net.OpError`: either it is an `*os.SyscallError` wrapping a
`syscall.Errno`, or anything else. -/
inductive OpInner
  | syscallErrno (errno : Nat)
  | otherInner
  deriving DecidableEq

/-- The shape of a Go error as far as `OnDialFilter` can distinguish it:
a `*net.OpError` (which satisfies `net.Error`, with the result of its
`Temporary()` method and its inner error), some other `net.Error`,
`io.EOF` (not a `net.Error`), or any other error. -/
inductive NetErr
  | opError (temporary : Bool) (inner : OpInner)
  | otherNetError (temporary : Bool)
  | eof
  | plain
  deriving DecidableEq

/-- `OnDialFilter` (node package): type-switch on `net.Error`, return
`nil` for temporary network errors, return the error for a
`*net.OpError` wrapping `os.SyscallError` wrapping `syscall.Errno`
`0x68` ("connection reset by peer") and for `io.EOF`, and `nil` in every
other case. -/
def OnDialFilter (e : NetErr) : Option NetErr :=
  match e with
  | NetErr.opError temp inner =>
    if temp then none
    else
      match inner with
      | OpInner.syscallErrno errno =>
          if errno = 0x68 then some e else none
      | OpInner.otherInner => none
  | NetErr.otherNetError temp => if temp then none else none
  | NetErr.eof => some e
  | NetErr.plain => none

/-- `Temporary()` of the error, as `OnDialFilter` would observe it (false
for errors that are not `net.Error`). -/
def isTemporaryNet : NetErr → Bool
  | NetErr.opError temp _ => temp
  | NetErr.otherNetError temp => temp
  | _ => false

/-- Whether the error has the "connection reset by peer" shape the filter
looks for: a `*net.OpError` wrapping an `*os.SyscallError` wrapping
`syscall.Errno` `0x68`. -/
def isConnReset : NetErr → Bool
  | NetErr.opError _ (OpInner.syscallErrno errno) => errno = 0x68
  | _ => false

/-! ## cxds version encoding (src/unnamed/part_000 lines 14, 47-59) -/

/-- `const Version int = 2` of the cxds package. -/
def Version : Nat := 2

/-- The four bytes `binary.BigEndian.PutUint32` stores for `n % 2 ^ 32`. -/
def putUint32BE (n : Nat) : List Nat :=
  [n / 16777216 % 256, n / 65536 % 256, n / 256 % 256, n % 256]

/-- `binary.BigEndian.Uint32` over the first four bytes of a buffer. -/
def getUint32BE : List Nat → Nat
  | b0 :: b1 :: b2 :: b3 :: _ => 16777216 * b0 + 65536 * b1 + 256 * b2 + b3
  | _ => 0

/-- `encodeUint32` of cxds: allocates 4 bytes and stores
`uint32(Version)` into them — the argument `u` is never used. -/
def encodeUint32 (u : Nat) : List Nat :=
  putUint32BE (Version % 2 ^ 32)

/-- `decodeUint32` of cxds. -/
def decodeUint32 (ub : List Nat) : Nat :=
  getUint32BE ub

/-- `versionBytes` of cxds: `encodeUint32(uint32(Version))`. -/
def versionBytes : List Nat :=
  encodeUint32 (Version % 2 ^ 32)

/-! ## Helper lemmas about the codec -/

theorem length_putUint32LE (n : Nat) : (putUint32LE n).length = 4 := rfl

theorem getUint32LE_putUint32LE (n : Nat) :
    getUint32LE (putUint32LE n) = n % 2 ^ 32 := by
  simp only [putUint32LE, getUint32LE]
  omega

/-- Decoding a well-formed frame whose length fits the 4-byte head and
respects the configured maximum yields the body and the unconsumed rest
of the stream. -/
theorem readMsg_frame (M : Nat) (body tail : List Nat) (h32 : body.length < 2 ^ 32)
    (hM : M = 0 ∨ body.length ≤ M) :
    readMsg M 64 (putUint32LE body.length ++ (body ++ tail)) = ReadResult.msg body tail := by
  have htake : (putUint32LE body.length ++ (body ++ tail)).take 4 = putUint32LE body.length :=
    List.take_left' (length_putUint32LE _)
  have hdrop : (putUint32LE body.length ++ (body ++ tail)).drop 4 = body ++ tail :=
    List.drop_left' (length_putUint32LE _)
  have hlen : ¬ (putUint32LE body.length ++ (body ++ tail)).length < 4 := by
    simp [putUint32LE]
  have hget : getUint32LE ((putUint32LE body.length ++ (body ++ tail)).take 4) = body.length := by
    rw [htake, getUint32LE_putUint32LE, Nat.mod_eq_of_lt h32]
  have hint : intOfUint32 64 body.length = (body.length : Int) := by
    simp [intOfUint32]
  have hneg : ¬ intOfUint32 64 body.length < 0 := by
    rw [hint]; exact Int.not_lt.mpr (Int.ofNat_nonneg _)
  have hover : ¬ (0 < M ∧ (M : Int) < intOfUint32 64 body.length) := by
    rw [hint]
    rcases hM with hM0 | hMle
    · rintro ⟨h1, _⟩; omega
    · rintro ⟨_, h2⟩
      have : (body.length : Int) ≤ (M : Int) := by exact_mod_cast hMle
      omega
  have htonat : (intOfUint32 64 body.length).toNat = body.length := by
    rw [hint]; exact Int.toNat_natCast _
  have hshort : ¬ (body ++ tail).length < body.length := by
    simp [List.length_append]
  simp only [readMsg, if_neg hlen, hget, if_neg hneg, if_neg hover, hdrop, htonat,
    if_neg hshort, List.take_left, List.drop_left]

/-- Decoding a frame whose advertised length exceeds a positive
`MaxMessageSize` fails fatally. -/
theorem readMsg_oversize (M : Nat) (body tail : List Nat)
    (hM : 0 < M) (hlt : M < body.length) (h32 : body.length < 2 ^ 32) :
    readMsg M 64 (putUint32LE body.length ++ (body ++ tail)) = ReadResult.fatalOversize := by
  have htake : (putUint32LE body.length ++ (body ++ tail)).take 4 = putUint32LE body.length :=
    List.take_left' (length_putUint32LE _)
  have hlen : ¬ (putUint32LE body.length ++ (body ++ tail)).length < 4 := by
    simp [putUint32LE]
  have hget : getUint32LE ((putUint32LE body.length ++ (body ++ tail)).take 4) = body.length := by
    rw [htake, getUint32LE_putUint32LE, Nat.mod_eq_of_lt h32]
  have hint : intOfUint32 64 body.length = (body.length : Int) := by
    simp [intOfUint32]
  have hneg : ¬ intOfUint32 64 body.length < 0 := by
    rw [hint]; exact Int.not_lt.mpr (Int.ofNat_nonneg _)
  have hover : 0 < M ∧ (M : Int) < intOfUint32 64 body.length := by
    rw [hint]
    exact ⟨hM, by exact_mod_cast hlt⟩
  simp only [readMsg, if_neg hlen, hget, if_neg hneg, if_pos hover]

/-- On a 32-bit host a frame head in `[2 ^ 31, 2 ^ 32)` widens to a
negative `int` and decoding fails fatally. -/
theorem readMsg_negative (M : Nat) (tail : List Nat) (ln : Nat)
    (hln : 2 ^ 31 ≤ ln) (hln32 : ln < 2 ^ 32) :
    readMsg M 32 (putUint32LE ln ++ tail) = ReadResult.fatalNegative := by
  have htake : (putUint32LE ln ++ tail).take 4 = putUint32LE ln :=
    List.take_left' (length_putUint32LE _)
  have hlen : ¬ (putUint32LE ln ++ tail).length < 4 := by
    simp [putUint32LE]
  have hget : getUint32LE ((putUint32LE ln ++ tail).take 4) = ln := by
    rw [htake, getUint32LE_putUint32LE, Nat.mod_eq_of_lt hln32]
  have hneg : intOfUint32 32 ln < 0 := by
    unfold intOfUint32
    rw [if_pos ⟨rfl, hln⟩]
    have : (ln : Int) < 2 ^ 32 := by exact_mod_cast hln32
    omega
  simp only [readMsg, if_neg hlen, hget, if_pos hneg]

/-- `writeMsg` on an oversize payload: terminate, no error, no writes. -/
theorem writeMsg_oversize_eq (M : Nat) (isClosed headOk bodyOk : Bool) (body : List Nat)
    (hM : 0 < M) (h : M < body.length) :
    writeMsg M isClosed headOk bodyOk body = ⟨true, false, []⟩ := by
  unfold writeMsg
  rw [if_pos ⟨hM, h⟩]

/-- `writeMsg` on an acceptable payload with a fault-free writer writes
the 4-byte head and then the body. -/
theorem writeMsg_ok_eq (M : Nat) (body : List Nat) (h : ¬ (0 < M ∧ M < body.length)) :
    writeMsg M false true true body =
      ⟨false, false, [putUint32LE (body.length % 2 ^ 32), body]⟩ := by
  unfold writeMsg
  rw [if_neg h]
  simp

/-! ## Helper lemmas about the dial counter and Close -/

/-- With `DialsLimit = 0` the counter starts at `-1` and goes down by one
for every attempt, never reaching `0`. -/
theorem counterAfter_infinite (k : Nat) : counterAfter 0 k = some (-1 - (k : Int)) := by
  induction k with
  | zero =>
    show some (dialInit 0) = some (-1 - ((0 : Nat) : Int))
    unfold dialInit
    norm_num
  | succ k ih =>
    show (counterAfter 0 k).bind dialIter = some (-1 - ((k + 1 : Nat) : Int))
    rw [ih]
    show dialIter (-1 - (k : Int)) = some (-1 - ((k + 1 : Nat) : Int))
    unfold dialIter
    rw [if_neg (show ¬ (-1 - (k : Int) = 0) by omega)]
    congr 1
    push_cast
    ring

/-- With `DialsLimit = N > 0` the first `N` iterations each dial and
decrement the counter. -/
theorem counterAfter_le (N k : Nat) (hN : 0 < N) (hk : k ≤ N) :
    counterAfter (N : Int) k = some ((N : Int) - k) := by
  induction k with
  | zero =>
    show some (dialInit (N : Int)) = some ((N : Int) - ((0 : Nat) : Int))
    unfold dialInit
    rw [if_neg (show ¬ ((N : Int) = 0) by omega)]
    norm_num
  | succ k ih =>
    have hk2 : k ≤ N := by omega
    show (counterAfter (N : Int) k).bind dialIter = some ((N : Int) - ((k + 1 : Nat) : Int))
    rw [ih hk2]
    show dialIter ((N : Int) - k) = some ((N : Int) - ((k + 1 : Nat) : Int))
    unfold dialIter
    rw [if_neg (show ¬ ((N : Int) - k = 0) by omega)]
    congr 1
    push_cast
    ring

/-- A second `Close` on an already-closed connection does nothing
(`closeo.Do` runs its body only once). -/
theorem Close_of_closeOnce (hasCallback : Bool) (c : ConnM) (h : c.closeOnce = true) :
    ConnM.Close hasCallback c = (c, []) := by
  unfold ConnM.Close
  rw [if_pos h]

/-- After any `Close` the single-fire close guard is spent. -/
theorem Close_closeOnce_true (hasCallback : Bool) (c : ConnM) :
    (ConnM.Close hasCallback c).1.closeOnce = true := by
  rcases c with ⟨st, hc, cc, ip, co⟩
  cases co <;> cases hc <;> simp [ConnM.Close, closeConnection]

/-- Iterating `Close` on an already-closed connection does nothing. -/
theorem closeN_closed (hasCallback : Bool) (c : ConnM) (h : c.closeOnce = true) (n : Nat) :
    closeN hasCallback c n = (c, []) := by
  induction n with
  | zero => rfl
  | succ n ih =>
    simp [closeN, Close_of_closeOnce hasCallback c h, ih]

/-- `n ≥ 1` calls of `Close` have the state and action trace of one. -/
theorem closeN_eq_close (hasCallback : Bool) (c : ConnM) (n : Nat) (hn : 1 ≤ n) :
    closeN hasCallback c n = ConnM.Close hasCallback c := by
  obtain ⟨m, rfl⟩ : ∃ m, n = m + 1 := ⟨n - 1, by omega⟩
  simp only [closeN]
  rw [closeN_closed hasCallback (ConnM.Close hasCallback c).1 (Close_closeOnce_true _ _) m]
  simp

/-- The trace of the first `Close` on a not-yet-closed connection closes
the `closed` channel once, deletes the address from the pool once and
invokes the close callback exactly once (when configured). -/
theorem Close_counts (hasCallback : Bool) (c : ConnM) (h : c.closeOnce = false) :
    (ConnM.Close hasCallback c).2.count CloseAction.closeClosedChannel = 1 ∧
    (ConnM.Close hasCallback c).2.count CloseAction.deleteFromPool = 1 ∧
    (ConnM.Close hasCallback c).2.count CloseAction.onCloseCallback =
      (if hasCallback then 1 else 0) := by
  rcases c with ⟨st, hc, cc, ip, co⟩
  cases co
  · cases hc <;> cases hasCallback <;>
      simp [ConnM.Close, closeConnection, List.count_cons, List.count_append]
  · simp at h

/-! ## Claim theorems -/

/-- Claim C1: the claim states that after `Close()` returns, `State()` is
`Closed` for every connection, with or without a current byte stream.
The code violates this: `closeConnection` sets `ConnStateClosed` only
under its `c.conn != nil` guard, so closing an outgoing connection whose
dial never succeeded (state `ConnStateDialing`, `conn == nil`) leaves the
state `ConnStateDialing` forever, while a connection that does hold a
byte stream is moved to `ConnStateClosed` as claimed.  This theorem
evaluates the model at the failing input and at a connection with a
stream. -/
theorem close_dialing_no_stream_keeps_dialing :
    (ConnM.Close true dialingNoStreamConn).1.state = ConnState.dialing ∧
    (ConnM.Close true dialingNoStreamConn).1.state ≠ ConnState.closed ∧
    (ConnM.Close true ⟨ConnState.connected, true, false, true, false⟩).1.state =
      ConnState.closed := by decide

/-- Claim C2 counterexample: the claim says a zero backoff becomes 100 ms
after a failed dial and that the backoff never exceeds
`MaxRedialTimeout`.  With `MaxRedialTimeout = 0` and backoff `0` the
update leaves `0` (not 100 ms), and with `MaxRedialTimeout = 50 ms` and a
current backoff of `60 ms` (a configured `RedialTimeout` larger than
`MaxRedialTimeout`) the backoff stays `60 ms`, above the cap. -/
theorem updateBackoff_counterexample :
    updateBackoff 0 0 = 0 ∧ updateBackoff 0 0 ≠ hundredMs ∧
    updateBackoff 50000000 60000000 = 60000000 ∧
    ¬ updateBackoff 50000000 60000000 ≤ 50000000 := by decide

/-- Claim C2 (amended): the backoff is updated only when it is currently
strictly below `MaxRedialTimeout`: then a zero backoff becomes 100 ms and
a non-zero one doubles, the result capped at `MaxRedialTimeout`; a
backoff at or above `MaxRedialTimeout` (in particular whenever
`MaxRedialTimeout = 0`) is left unchanged.  Hence with
`RedialTimeout = 0` and `MaxRedialTimeout > 0` the backoff after the
first failed dial is `min (100 ms) MaxRedialTimeout`, and a backoff that
starts at or below `MaxRedialTimeout` never exceeds it. -/
theorem updateBackoff_amended (maxRedial tm : Nat) :
    (tm < maxRedial →
      updateBackoff maxRedial tm = min (if tm = 0 then hundredMs else tm * 2) maxRedial) ∧
    (maxRedial ≤ tm → updateBackoff maxRedial tm = tm) ∧
    (0 < maxRedial → updateBackoff maxRedial 0 = min hundredMs maxRedial) ∧
    (tm ≤ maxRedial → updateBackoff maxRedial tm ≤ maxRedial) := by
  refine ⟨?_, ?_, ?_, ?_⟩ <;> intro h <;>
    simp only [updateBackoff, hundredMs] <;> split_ifs <;> omega

/-- Witness for the amended claim C2 at concrete inputs: doubling below
the cap, no change above the cap, and the first-failure value 100 ms when
`MaxRedialTimeout` is large enough. -/
theorem updateBackoff_amended_witness :
    updateBackoff 200000000 60000000 = 120000000 ∧
    updateBackoff 50000000 60000000 = 60000000 ∧
    updateBackoff 200000000 0 = 100000000 := by
  refine ⟨?_, ?_, ?_⟩
  · have h := (updateBackoff_amended 200000000 60000000).1 (by decide)
    simpa using h
  · exact (updateBackoff_amended 50000000 60000000).2.1 (by decide)
  · have h := (updateBackoff_amended 200000000 0).2.2.1 (by decide)
    simpa using h

/-- Claim C3: `DialsLimit = 0` permits unboundedly many dial attempts
(the counter never reaches `0`), and `DialsLimit = N > 0` permits exactly
`N` attempts: after `N` iterations the counter is `0` and all `N`
attempts were performed, and the `N + 1`-th iteration finds the counter
at zero and closes the connection instead of dialing. -/
theorem dialsLimit_attempts :
    (∀ k : Nat, counterAfter 0 k ≠ none) ∧
    (∀ N : Nat, 0 < N →
      counterAfter (N : Int) N = some 0 ∧ counterAfter (N : Int) (N + 1) = none) := by
  constructor
  · intro k
    rw [counterAfter_infinite]
    exact Option.some_ne_none _
  · intro N hN
    have h1 : counterAfter (N : Int) N = some 0 := by
      rw [counterAfter_le N N hN le_rfl]
      congr 1
      omega
    refine ⟨h1, ?_⟩
    show (counterAfter (N : Int) N).bind dialIter = none
    rw [h1]
    show dialIter 0 = none
    unfold dialIter
    rw [if_pos rfl]

/-- Witness for claim C3 at `DialsLimit = 1`: exactly one attempt is
permitted and the second iteration closes the connection. -/
theorem dialsLimit_attempts_witness :
    counterAfter ((1 : Nat) : Int) 1 = some 0 ∧ counterAfter ((1 : Nat) : Int) 2 = none :=
  dialsLimit_attempts.2 1 (by decide)

/-- Claim C4 counterexample: with `MaxMessageSize = 0` the claim covers
byte sequences of any length, but for a payload of `2 ^ 32` bytes the
head `uint32(len(body))` truncates to `0`, so the encoded frame decodes
to the empty payload rather than the original one. -/
theorem frame_roundtrip_counterexample :
    readMsg 0 64 ((writeMsg 0 false true true (List.replicate (2 ^ 32) 0)).writes.flatten) ≠
      ReadResult.msg (List.replicate (2 ^ 32) 0) [] := by
  have hnw : ¬ ((0 : Nat) < 0 ∧ 0 < (List.replicate (2 ^ 32) (0 : Nat)).length) := by
    rintro ⟨h, _⟩
    exact absurd h (lt_irrefl 0)
  have hw := writeMsg_ok_eq 0 (List.replicate (2 ^ 32) 0) hnw
  have hmod : (List.replicate (2 ^ 32) (0 : Nat)).length % 2 ^ 32 = 0 := by
    rw [List.length_replicate]
    omega
  have hre : readMsg 0 64 (putUint32LE 0 ++ List.replicate (2 ^ 32) 0) =
      ReadResult.msg [] (List.replicate (2 ^ 32) 0) := by
    have h := readMsg_frame 0 [] (List.replicate (2 ^ 32) 0) (by decide) (Or.inl rfl)
    rw [List.length_nil, List.nil_append] at h
    exact h
  rw [hw]
  show readMsg 0 64 (putUint32LE ((List.replicate (2 ^ 32) (0 : Nat)).length % 2 ^ 32) ++
      (List.replicate (2 ^ 32) (0 : Nat) ++ [])) ≠
    ReadResult.msg (List.replicate (2 ^ 32) 0) []
  rw [hmod, List.append_nil, hre]
  intro heq
  have h2 : (List.nil : List Nat) = List.replicate (2 ^ 32) 0 :=
    ((ReadResult.msg.injEq _ _ _ _).mp heq).1
  have h3 := congrArg List.length h2
  rw [List.length_nil, List.length_replicate] at h3
  omega

/-- Claim C4 (amended): for every byte sequence `body` of length less
than `2 ^ 32` and at most `MaxMessageSize` (of any length below `2 ^ 32`
when `MaxMessageSize = 0`), encoding emits the 4-byte little-endian
length followed by the body and decoding that frame yields exactly
`body`, leaving any following bytes unconsumed. -/
theorem frame_roundtrip (M : Nat) (body tail : List Nat)
    (h32 : body.length < 2 ^ 32) (hM : M = 0 ∨ body.length ≤ M) :
    (writeMsg M false true true body).terminate = false ∧
    (writeMsg M false true true body).errored = false ∧
    readMsg M 64 ((writeMsg M false true true body).writes.flatten ++ tail) =
      ReadResult.msg body tail := by
  have hnw : ¬ (0 < M ∧ M < body.length) := by
    rcases hM with h | h <;> omega
  have hw := writeMsg_ok_eq M body hnw
  have hmod : body.length % 2 ^ 32 = body.length := Nat.mod_eq_of_lt h32
  refine ⟨by rw [hw], by rw [hw], ?_⟩
  rw [hw]
  show readMsg M 64 ((putUint32LE (body.length % 2 ^ 32) ++ (body ++ [])) ++ tail) =
    ReadResult.msg body tail
  rw [hmod, List.append_nil, List.append_assoc]
  exact readMsg_frame M body tail h32 hM

/-- Witness for the amended claim C4: the payload `[1, 2, 3]` with
`MaxMessageSize = 0` survives the encode-decode round trip. -/
theorem frame_roundtrip_witness :
    readMsg 0 64 ((writeMsg 0 false true true [1, 2, 3]).writes.flatten ++ [9]) =
      ReadResult.msg [1, 2, 3] [9] :=
  (frame_roundtrip 0 [1, 2, 3] [9] (by decide) (Or.inl rfl)).2.2

/-- Claim C5: with `MaxMessageSize = M > 0` a payload of exactly `M`
bytes is accepted by `writeMsg` and by the read loop's decoder, a payload
of `M + 1` bytes is rejected fatally on both sides (`writeMsg` returns
`terminate = true`, the decoder hits its fatal oversize return rather
than the redial path), and a decoded head that widens to a negative host
`int` (32-bit host, `ln ≥ 2 ^ 31`) is likewise fatal. -/
theorem maxMessageSize_boundary (M : Nat) (body big tail : List Nat) (ln : Nat)
    (hM : 0 < M) (hM31 : M < 2 ^ 31)
    (hbody : body.length = M) (hbig : big.length = M + 1)
    (hln : 2 ^ 31 ≤ ln) (hln32 : ln < 2 ^ 32) :
    (writeMsg M false true true body).terminate = false ∧
    (writeMsg M false true true body).writes = [putUint32LE M, body] ∧
    writeMsg M false true true big = ⟨true, false, []⟩ ∧
    readMsg M 64 (putUint32LE body.length ++ (body ++ tail)) = ReadResult.msg body tail ∧
    readMsg M 64 (putUint32LE big.length ++ (big ++ tail)) = ReadResult.fatalOversize ∧
    readMsg M 32 (putUint32LE ln ++ tail) = ReadResult.fatalNegative := by
  have h32 : body.length < 2 ^ 32 := by omega
  have hbig32 : big.length < 2 ^ 32 := by omega
  have hnw : ¬ (0 < M ∧ M < body.length) := by omega
  have hw := writeMsg_ok_eq M body hnw
  refine ⟨by rw [hw], ?_, ?_, ?_, ?_, ?_⟩
  · rw [hw]
    show [putUint32LE (body.length % 2 ^ 32), body] = [putUint32LE M, body]
    rw [hbody, Nat.mod_eq_of_lt (by omega)]
  · exact writeMsg_oversize_eq M false true true big hM (by omega)
  · exact readMsg_frame M body tail h32 (Or.inr (by omega))
  · exact readMsg_oversize M big tail hM (by omega) hbig32
  · exact readMsg_negative M tail ln hln hln32

/-- Witness for claim C5 at `MaxMessageSize = 1`: a 1-byte payload passes
both sides, a 2-byte payload terminates the writer and is a fatal
oversize for the decoder, and the head `2 ^ 31` is a fatal negative
length on a 32-bit host. -/
theorem maxMessageSize_boundary_witness :
    (writeMsg 1 false true true [7]).terminate = false ∧
    writeMsg 1 false true true [7, 7] = ⟨true, false, []⟩ ∧
    readMsg 1 64 (putUint32LE 1 ++ [7]) = ReadResult.msg [7] [] ∧
    readMsg 1 64 (putUint32LE 2 ++ [7, 7]) = ReadResult.fatalOversize ∧
    readMsg 1 32 (putUint32LE (2 ^ 31)) = ReadResult.fatalNegative := by
  have h := maxMessageSize_boundary 1 [7] [7, 7] [] (2 ^ 31)
    (by decide) (by decide) (by decide) (by decide) (by decide) (by decide)
  exact ⟨h.1, h.2.2.1, by simpa using h.2.2.2.1, by simpa using h.2.2.2.2.1,
    by simpa using h.2.2.2.2.2⟩

/-- Claim C6: on an incoming connection any I/O fault observed by the
read or the write loop closes the fault's stream, calls `Close()` and
returns; regardless of scheduling, neither trigger performs any
operation on the redial channels `dialtr`, `readd` or `writed`. -/
theorem incoming_fault_terminal (otherSignaled : Bool) (choice : RecoverChoice) :
    triggerDialingRead true otherSignaled choice =
      [FaultAction.closeStream, FaultAction.closeConn] ∧
    triggerDialingWrite true otherSignaled choice =
      [FaultAction.closeStream, FaultAction.closeConn] ∧
    (triggerDialingRead true otherSignaled choice).all
      (fun a => !touchesRedialChannel a) = true ∧
    (triggerDialingWrite true otherSignaled choice).all
      (fun a => !touchesRedialChannel a) = true := by
  cases otherSignaled <;> cases choice <;> decide

/-- Claim C7: `OnDialFilter` returns `nil` for temporary network errors,
returns the error itself for `io.EOF` and for a non-temporary
`*net.OpError` wrapping `*os.SyscallError` wrapping `syscall.Errno`
`0x68` ("connection reset by peer"), and `nil` for every other error. -/
theorem OnDialFilter_characterization (e : NetErr) :
    OnDialFilter e =
      if isTemporaryNet e = true then none
      else if e = NetErr.eof ∨ isConnReset e = true then some e
      else none := by
  cases e with
  | opError temp inner =>
    cases temp with
    | true => cases inner <;> simp [OnDialFilter, isTemporaryNet, isConnReset]
    | false =>
      cases inner with
      | syscallErrno errno =>
        by_cases h : errno = 0x68 <;>
          simp [OnDialFilter, isTemporaryNet, isConnReset, h]
      | otherInner => simp [OnDialFilter, isTemporaryNet, isConnReset]
  | otherNetError temp => cases temp <;> simp [OnDialFilter, isTemporaryNet, isConnReset]
  | eof => simp [OnDialFilter, isTemporaryNet, isConnReset]
  | plain => simp [OnDialFilter, isTemporaryNet, isConnReset]

/-- Claim C8: calling `Close()` `n ≥ 1` times produces the same final
connection state and the same observable action trace as calling it
once, and on a not-yet-closed connection the trace closes the `closed`
channel exactly once, removes the address from the pool registry exactly
once and invokes `OnCloseConnection` exactly once when configured. -/
theorem close_idempotent (hasCallback : Bool) (c : ConnM) (n : Nat) (hn : 1 ≤ n) :
    closeN hasCallback c n = ConnM.Close hasCallback c ∧
    (c.closeOnce = false →
      (closeN hasCallback c n).2.count CloseAction.closeClosedChannel = 1 ∧
      (closeN hasCallback c n).2.count CloseAction.deleteFromPool = 1 ∧
      (closeN hasCallback c n).2.count CloseAction.onCloseCallback =
        (if hasCallback then 1 else 0)) := by
  have he := closeN_eq_close hasCallback c n hn
  refine ⟨he, fun h => ?_⟩
  rw [he]
  exact Close_counts hasCallback c h

/-- Witness for claim C8: three `Close` calls on a fresh connected
incoming-style connection equal one call, and the callback fires exactly
once. -/
theorem close_idempotent_witness :
    closeN true ⟨ConnState.connected, true, false, true, false⟩ 3 =
      ConnM.Close true ⟨ConnState.connected, true, false, true, false⟩ ∧
    (closeN true ⟨ConnState.connected, true, false, true, false⟩ 3).2.count
      CloseAction.onCloseCallback = 1 := by
  have h := close_idempotent true ⟨ConnState.connected, true, false, true, false⟩ 3 (by decide)
  exact ⟨h.1, by simpa using (h.2 rfl).2.2⟩

/-- Claim C9: when `MaxMessageSize > 0` and the payload is longer,
`writeMsg` returns `terminate = true` before performing any `Write` call
on the underlying writer, whatever the writer would have done and
whether or not the connection is closing. -/
theorem writeMsg_oversize_no_write (M : Nat) (isClosed headOk bodyOk : Bool)
    (body : List Nat) (hM : 0 < M) (h : M < body.length) :
    (writeMsg M isClosed headOk bodyOk body).terminate = true ∧
    (writeMsg M isClosed headOk bodyOk body).writes = [] :=
  ⟨by rw [writeMsg_oversize_eq M isClosed headOk bodyOk body hM h],
   by rw [writeMsg_oversize_eq M isClosed headOk bodyOk body hM h]⟩

/-- Witness for claim C9: a 2-byte payload with `MaxMessageSize = 1`
terminates without a single write. -/
theorem writeMsg_oversize_no_write_witness :
    (writeMsg 1 false true true [5, 6]).terminate = true ∧
    (writeMsg 1 false true true [5, 6]).writes = [] :=
  writeMsg_oversize_no_write 1 false true true [5, 6] (by decide) (by decide)

/-- Claim C10: `encodeUint32` of cxds ignores its argument and always
returns the big-endian encoding of the constant `Version = 2`, so
`decodeUint32 (encodeUint32 u) = 2` for every `u` and `versionBytes`
equals `encodeUint32` applied to any argument. -/
theorem encodeUint32_ignores_argument (u : Nat) :
    encodeUint32 u = [0, 0, 0, 2] ∧
    decodeUint32 (encodeUint32 u) = 2 ∧
    encodeUint32 u = versionBytes := by
  exact ⟨rfl, rfl, rfl⟩

end Cxo
